import Mathlib

/-!
Verification of the SkyViewCanvas renderer of the Constellation Quiz
application: the stereographic hemisphere projection, the hemisphere
layout, boundary-region building with hit testing, and the star /
boundary drawing rules.  Every definition is a direct translation of
the corresponding JavaScript in SkyViewCanvas.jsx; machine reals are
modelled by Lean's real numbers.
-/

/-- The two hemisphere views: north pole centred or south pole centred. -/
inductive Hemisphere
  | north
  | south
deriving DecidableEq, Repr

/-- Hemisphere filter configuration value: show north, south, or both. -/
inductive HemisphereFilter
  | north
  | south
  | both
deriving DecidableEq, Repr

/-- The string the renderer uses for a hemisphere in map keys. -/
def hemisphereName : Hemisphere → String
  | Hemisphere.north => "north"
  | Hemisphere.south => "south"

/-- Result of projecting one sky point, as the source returns it:
canvas coordinates, the angular distance in degrees, and the
visibility flag (source line: visible: angularDist * 180 / Math.PI <= 90). -/
structure ProjectedPoint where
  x : ℝ
  y : ℝ
  angularDist : ℝ
  visible : Prop

/-- Each hemisphere circle size, source: hemisphereSize = 800. -/
noncomputable def hemisphereSize : ℝ := 800

/-- Source: raToRad = (raHours) => raHours * 15 * Math.PI / 180. -/
noncomputable def raToRad (raHours : ℝ) : ℝ := raHours * 15 * Real.pi / 180

/-- Source: decToRad = (decDeg) => decDeg * Math.PI / 180. -/
noncomputable def decToRad (decDeg : ℝ) : ℝ := decDeg * Real.pi / 180

/-- Source: centerDec = hemisphere === 'north' ? 90 : -90. -/
noncomputable def centerDec (hemisphere : Hemisphere) : ℝ :=
  if hemisphere = Hemisphere.north then 90 else -90

/-- The local const cosDist of projectToHemisphere:
sin(centerDecRad)*sin(decRad) + cos(centerDecRad)*cos(decRad).
The right-ascension term is absent because cos(dRA) = 1 at the pole. -/
noncomputable def cosDist (dec : ℝ) (hemisphere : Hemisphere) : ℝ :=
  Real.sin (decToRad (centerDec hemisphere)) * Real.sin (decToRad dec) +
    Real.cos (decToRad (centerDec hemisphere)) * Real.cos (decToRad dec)

/-- The local const angularDist of projectToHemisphere (in radians):
Math.acos(Math.max(-1, Math.min(1, cosDist))). -/
noncomputable def angularDist (dec : ℝ) (hemisphere : Hemisphere) : ℝ :=
  Real.arccos (max (-1) (min 1 (cosDist dec hemisphere)))

/-- The local const posAngle: -raRad for north, raRad for south. -/
noncomputable def posAngle (ra : ℝ) (hemisphere : Hemisphere) : ℝ :=
  if hemisphere = Hemisphere.north then -(raToRad ra) else raToRad ra

/-- Source: viewRadiusRad = 90 * Math.PI / 180. -/
noncomputable def viewRadiusRad : ℝ := 90 * Real.pi / 180

/-- The local const r: 2.0 * Math.tan(angularDist / 2), the
stereographic radius of the projected point. -/
noncomputable def stereoR (dec : ℝ) (hemisphere : Hemisphere) : ℝ :=
  2.0 * Real.tan (angularDist dec hemisphere / 2)

/-- Source: edgeR = 2.0 * Math.tan(viewRadiusRad / 2). -/
noncomputable def edgeR : ℝ := 2.0 * Real.tan (viewRadiusRad / 2)

/-- Source: scale = (hemisphereSize / 2) / edgeR. -/
noncomputable def projScale : ℝ := (hemisphereSize / 2) / edgeR

/-- Source function projectToHemisphere(ra, dec, hemisphere, centerX, centerY):
stereographic projection of a sky point onto the given hemisphere circle. -/
noncomputable def projectToHemisphere (ra dec : ℝ) (hemisphere : Hemisphere)
    (centerX centerY : ℝ) : ProjectedPoint :=
  { x := centerX + stereoR dec hemisphere * Real.sin (posAngle ra hemisphere) * projScale
    y := centerY - stereoR dec hemisphere * Real.cos (posAngle ra hemisphere) * projScale
    angularDist := angularDist dec hemisphere * 180 / Real.pi
    visible := angularDist dec hemisphere * 180 / Real.pi ≤ 90 }

section SanityChecks

/-- At the north pole the cosine of the angular distance is exactly 1. -/
theorem cosDist_north_pole : cosDist 90 Hemisphere.north = 1 := by
  have h := Real.sin_sq_add_cos_sq (decToRad 90)
  have hc : centerDec Hemisphere.north = 90 := rfl
  simp only [cosDist, hc]
  nlinarith [h]

/-- At the south pole (dec = -90, south hemisphere) cosDist is exactly 1. -/
theorem cosDist_south_pole : cosDist (-90) Hemisphere.south = 1 := by
  have h := Real.sin_sq_add_cos_sq (decToRad (-90))
  have hc : centerDec Hemisphere.south = -90 := rfl
  simp only [cosDist, hc]
  nlinarith [h]

/-- The angular distance (radians) vanishes at the chosen pole. -/
theorem angularDist_pole (hemisphere : Hemisphere) :
    angularDist (centerDec hemisphere) hemisphere = 0 := by
  cases hemisphere
  · simp [angularDist, centerDec, cosDist_north_pole]
  · simp [angularDist, centerDec, cosDist_south_pole]

end SanityChecks

section ProjectionLemmas

theorem decToRad_90 : decToRad 90 = Real.pi / 2 := by
  unfold decToRad; ring

/-- For the north hemisphere the cosine of the angular distance reduces
to the sine of the declination (cos(pi/2) = 0 kills the second term). -/
theorem cosDist_north (dec : ℝ) : cosDist dec Hemisphere.north = Real.sin (decToRad dec) := by
  have hc : centerDec Hemisphere.north = 90 := rfl
  rw [cosDist, hc, decToRad_90, Real.sin_pi_div_two, Real.cos_pi_div_two]
  ring

/-- The defensive clamp is the identity on values of sine. -/
theorem clamp_sin (x : ℝ) : max (-1) (min 1 (Real.sin x)) = Real.sin x := by
  rw [min_eq_right (Real.sin_le_one x), max_eq_right (Real.neg_one_le_sin x)]

/-- Radian-to-degree comparison against the 90 degree cutoff. -/
theorem deg_le_90_iff (a : ℝ) : a * 180 / Real.pi ≤ 90 ↔ a ≤ Real.pi / 2 := by
  rw [div_le_iff₀ Real.pi_pos]
  constructor
  · intro h; linarith
  · intro h; nlinarith [Real.pi_pos]

theorem sin_nonneg_iff_of_mem (x : ℝ) (h1 : -(Real.pi / 2) ≤ x) (h2 : x ≤ Real.pi / 2) :
    0 ≤ Real.sin x ↔ 0 ≤ x := by
  constructor
  · intro hs
    by_contra hx
    push_neg at hx
    have hneg : Real.sin x < 0 :=
      Real.sin_neg_of_neg_of_neg_pi_lt hx (by nlinarith [Real.pi_pos])
    linarith
  · intro hx
    exact Real.sin_nonneg_of_nonneg_of_le_pi hx (by nlinarith [Real.pi_pos])

end ProjectionLemmas

/-- C1: visible is true exactly when the angular distance from the chosen
pole is at most 90 degrees, and for the north hemisphere (with declination
in its documented range) exactly when dec is nonnegative. -/
theorem visible_iff_angularDist_le_90 (ra dec : ℝ) (hemisphere : Hemisphere)
    (centerX centerY : ℝ) (h1 : -90 ≤ dec) (h2 : dec ≤ 90) :
    ((projectToHemisphere ra dec hemisphere centerX centerY).visible ↔
      (projectToHemisphere ra dec hemisphere centerX centerY).angularDist ≤ 90) ∧
    (hemisphere = Hemisphere.north →
      ((projectToHemisphere ra dec hemisphere centerX centerY).visible ↔ 0 ≤ dec)) := by
  constructor
  · exact Iff.rfl
  · rintro rfl
    show angularDist dec Hemisphere.north * 180 / Real.pi ≤ 90 ↔ 0 ≤ dec
    rw [deg_le_90_iff]
    unfold angularDist
    rw [cosDist_north, clamp_sin, Real.arccos_le_pi_div_two]
    have hd1 : -(Real.pi / 2) ≤ decToRad dec := by
      unfold decToRad
      nlinarith [mul_nonneg (by linarith : (0:ℝ) ≤ dec + 90) Real.pi_pos.le]
    have hd2 : decToRad dec ≤ Real.pi / 2 := by
      unfold decToRad
      nlinarith [mul_nonneg (by linarith : (0:ℝ) ≤ 90 - dec) Real.pi_pos.le]
    rw [sin_nonneg_iff_of_mem _ hd1 hd2]
    unfold decToRad
    rw [mul_div_assoc]
    exact mul_nonneg_iff_of_pos_right (by positivity)

/-- Witness for C1 at the concrete input (ra, dec) = (0, 45), north. -/
theorem visible_iff_angularDist_le_90_witness :
    (-90 ≤ (45:ℝ) ∧ (45:ℝ) ≤ 90) ∧
    (((projectToHemisphere 0 45 Hemisphere.north 0 0).visible ↔
       (projectToHemisphere 0 45 Hemisphere.north 0 0).angularDist ≤ 90) ∧
     (Hemisphere.north = Hemisphere.north →
       ((projectToHemisphere 0 45 Hemisphere.north 0 0).visible ↔ 0 ≤ (45:ℝ)))) :=
  ⟨⟨by norm_num, by norm_num⟩,
    visible_iff_angularDist_le_90 0 45 Hemisphere.north 0 0 (by norm_num) (by norm_num)⟩

/-- C4: projecting the hemisphere's own pole (dec = 90 north, dec = -90
south) lands exactly on the hemisphere center for every right ascension,
with angular distance 0 and stereographic radius 0. -/
theorem pole_projects_to_center (ra centerX centerY : ℝ) :
    (projectToHemisphere ra 90 Hemisphere.north centerX centerY).x = centerX ∧
    (projectToHemisphere ra 90 Hemisphere.north centerX centerY).y = centerY ∧
    (projectToHemisphere ra 90 Hemisphere.north centerX centerY).angularDist = 0 ∧
    stereoR 90 Hemisphere.north = 0 ∧
    (projectToHemisphere ra (-90) Hemisphere.south centerX centerY).x = centerX ∧
    (projectToHemisphere ra (-90) Hemisphere.south centerX centerY).y = centerY ∧
    (projectToHemisphere ra (-90) Hemisphere.south centerX centerY).angularDist = 0 ∧
    stereoR (-90) Hemisphere.south = 0 := by
  have hn : angularDist 90 Hemisphere.north = 0 := angularDist_pole Hemisphere.north
  have hs : angularDist (-90) Hemisphere.south = 0 := angularDist_pole Hemisphere.south
  have hrn : stereoR 90 Hemisphere.north = 0 := by
    rw [stereoR, hn]; norm_num
  have hrs : stereoR (-90) Hemisphere.south = 0 := by
    rw [stereoR, hs]; norm_num
  refine ⟨?_, ?_, ?_, hrn, ?_, ?_, ?_, hrs⟩ <;>
    simp [projectToHemisphere, hn, hs, hrn, hrs]

/-- C9: the clamped cosine always stays in [-1, 1], hence the angular
distance in degrees is a well defined real in [0, 180] for every input. -/
theorem projection_total (ra dec centerX centerY : ℝ) (hemisphere : Hemisphere) :
    -1 ≤ max (-1) (min 1 (cosDist dec hemisphere)) ∧
    max (-1) (min 1 (cosDist dec hemisphere)) ≤ 1 ∧
    0 ≤ (projectToHemisphere ra dec hemisphere centerX centerY).angularDist ∧
    (projectToHemisphere ra dec hemisphere centerX centerY).angularDist ≤ 180 := by
  refine ⟨le_max_left _ _, max_le (by norm_num) (min_le_left _ _), ?_, ?_⟩
  · show 0 ≤ angularDist dec hemisphere * 180 / Real.pi
    have := Real.arccos_nonneg (max (-1) (min 1 (cosDist dec hemisphere)))
    unfold angularDist
    positivity
  · show angularDist dec hemisphere * 180 / Real.pi ≤ 180
    have h1 : angularDist dec hemisphere ≤ Real.pi := Real.arccos_le_pi _
    rw [div_le_iff₀ Real.pi_pos]
    nlinarith [Real.pi_pos]

/-- A catalog star as the renderer consumes it; the magnitude field may
be absent in the data. -/
structure SkyStar where
  ra : ℝ
  dec : ℝ
  magnitude : Option ℝ

/-- One constellation catalog entry: name, hemisphere tag, difficulty,
stars (positionally indexed), line index pairs, and the boundary vertex
list (which may be absent in malformed data). -/
structure ConstellationData where
  name : String
  hemisphere : String
  difficulty : String
  stars : List SkyStar
  lines : List (ℕ × ℕ)
  boundary : Option (List (ℝ × ℝ))

open scoped Classical

/-- Source idiom: const mag = star.magnitude || 5.  A missing magnitude
or the falsy number 0 both fall back to 5. -/
noncomputable def starMag (s : SkyStar) : ℝ :=
  match s.magnitude with
  | none => 5
  | some m => if m = 0 then 5 else m

/-- Background-star radius, source: Math.max(0.3, 2.0 * Math.pow(10, -(mag + 1.5) / 6.5)). -/
noncomputable def bgRadius (s : SkyStar) : ℝ :=
  max 0.3 (2.0 * (10:ℝ) ^ (-(starMag s + 1.5) / 6.5))

/-- Foreground-star radius, source: Math.max(0.5, 3.5 * Math.pow(10, -(mag + 1.5) / 6.5)). -/
noncomputable def fgRadius (s : SkyStar) : ℝ :=
  max 0.5 (3.5 * (10:ℝ) ^ (-(starMag s + 1.5) / 6.5))

/-- Bright-star glow test, source: if (mag < 2.5). -/
def hasGlow (s : SkyStar) : Prop := starMag s < 2.5

/-- The background stars actually drawn in one hemisphere pass: the loop
runs only when the list is nonempty and the opacity is positive, and a
star is skipped when its magnitude exceeds maxMagnitude or its
projection is not visible. -/
noncomputable def drawnBackgroundStars (backgroundStars : List SkyStar)
    (backgroundStarOpacity maxMagnitude : ℝ) (hemisphere : Hemisphere)
    (centerX centerY : ℝ) : List SkyStar :=
  if backgroundStars.length > 0 ∧ backgroundStarOpacity > 0 then
    backgroundStars.filter (fun s =>
      decide (starMag s ≤ maxMagnitude ∧
        (projectToHemisphere s.ra s.dec hemisphere centerX centerY).visible))
  else []

/-- The foreground constellation stars actually drawn in one hemisphere
pass: all constellations are traversed, and a star is skipped when its
magnitude exceeds maxMagnitude or its projection is not visible. -/
noncomputable def drawnForegroundStars (constellations : List (String × ConstellationData))
    (maxMagnitude : ℝ) (hemisphere : Hemisphere) (centerX centerY : ℝ) : List SkyStar :=
  constellations.flatMap (fun c =>
    c.2.stars.filter (fun s =>
      decide (starMag s ≤ maxMagnitude ∧
        (projectToHemisphere s.ra s.dec hemisphere centerX centerY).visible)))

/-- C7: the magnitude filter is monotone: with a smaller cutoff the drawn
star sets (background and foreground) only shrink. -/
theorem magnitude_filter_monotone (backgroundStars : List SkyStar)
    (constellations : List (String × ConstellationData)) (opacity m1 m2 : ℝ)
    (hemisphere : Hemisphere) (centerX centerY : ℝ) (h : m1 ≤ m2) :
    drawnBackgroundStars backgroundStars opacity m1 hemisphere centerX centerY ⊆
      drawnBackgroundStars backgroundStars opacity m2 hemisphere centerX centerY ∧
    drawnForegroundStars constellations m1 hemisphere centerX centerY ⊆
      drawnForegroundStars constellations m2 hemisphere centerX centerY := by
  constructor
  · intro s hs
    unfold drawnBackgroundStars at hs ⊢
    by_cases hg : backgroundStars.length > 0 ∧ opacity > 0
    · rw [if_pos hg] at hs ⊢
      rw [List.mem_filter] at hs ⊢
      refine ⟨hs.1, ?_⟩
      have := of_decide_eq_true hs.2
      exact decide_eq_true ⟨le_trans this.1 h, this.2⟩
    · rw [if_neg hg] at hs
      exact absurd hs (List.not_mem_nil s)
  · intro s hs
    unfold drawnForegroundStars at hs ⊢
    rw [List.mem_flatMap] at hs ⊢
    obtain ⟨c, hc, hsc⟩ := hs
    refine ⟨c, hc, ?_⟩
    rw [List.mem_filter] at hsc ⊢
    refine ⟨hsc.1, ?_⟩
    have := of_decide_eq_true hsc.2
    exact decide_eq_true ⟨le_trans this.1 h, this.2⟩

/-- Witness for C7 at concrete cutoffs 1 <= 2. -/
theorem magnitude_filter_monotone_witness :
    drawnBackgroundStars [] 100 1 Hemisphere.north 410 440 ⊆
      drawnBackgroundStars [] 100 2 Hemisphere.north 410 440 ∧
    drawnForegroundStars [] 1 Hemisphere.north 410 440 ⊆
      drawnForegroundStars [] 2 Hemisphere.north 410 440 :=
  magnitude_filter_monotone [] [] 100 1 2 Hemisphere.north 410 440 (by norm_num)

/-- C10: a star whose magnitude is missing or exactly 0 is treated as
magnitude 5 everywhere: it is filtered out whenever maxMagnitude < 5,
never gets a glow halo, and its radii are those of a magnitude 5 star. -/
theorem falsy_magnitude_defaults_to_5 (s : SkyStar)
    (hm : s.magnitude = none ∨ s.magnitude = some 0)
    (backgroundStars : List SkyStar) (constellations : List (String × ConstellationData))
    (opacity maxMagnitude : ℝ) (hemisphere : Hemisphere) (centerX centerY : ℝ) :
    starMag s = 5 ∧
    (maxMagnitude < 5 →
      s ∉ drawnBackgroundStars backgroundStars opacity maxMagnitude hemisphere centerX centerY ∧
      s ∉ drawnForegroundStars constellations maxMagnitude hemisphere centerX centerY) ∧
    ¬ hasGlow s ∧
    bgRadius s = max 0.3 (2.0 * (10:ℝ) ^ (-((5:ℝ) + 1.5) / 6.5)) ∧
    fgRadius s = max 0.5 (3.5 * (10:ℝ) ^ (-((5:ℝ) + 1.5) / 6.5)) := by
  have h5 : starMag s = 5 := by
    rcases hm with hm | hm <;> simp [starMag, hm]
  refine ⟨h5, ?_, ?_, ?_, ?_⟩
  · intro hlt
    constructor
    · intro hs
      unfold drawnBackgroundStars at hs
      by_cases hg : backgroundStars.length > 0 ∧ opacity > 0
      · rw [if_pos hg, List.mem_filter] at hs
        have := (of_decide_eq_true hs.2).1
        rw [h5] at this
        linarith
      · rw [if_neg hg] at hs
        exact List.not_mem_nil s hs
    · intro hs
      unfold drawnForegroundStars at hs
      rw [List.mem_flatMap] at hs
      obtain ⟨c, _, hsc⟩ := hs
      rw [List.mem_filter] at hsc
      have := (of_decide_eq_true hsc.2).1
      rw [h5] at this
      linarith
  · unfold hasGlow
    rw [h5]; norm_num
  · unfold bgRadius
    rw [h5]
  · unfold fgRadius
    rw [h5]

/-- Witness for C10: star of magnitude exactly 0 against cutoff 4. -/
theorem falsy_magnitude_defaults_to_5_witness :
    starMag (SkyStar.mk 0 0 (some 0)) = 5 ∧
    ((4:ℝ) < 5 →
      SkyStar.mk 0 0 (some 0) ∉ drawnBackgroundStars [] 100 4 Hemisphere.north 410 440 ∧
      SkyStar.mk 0 0 (some 0) ∉ drawnForegroundStars [] 4 Hemisphere.north 410 440) ∧
    ¬ hasGlow (SkyStar.mk 0 0 (some 0)) ∧
    bgRadius (SkyStar.mk 0 0 (some 0)) = max 0.3 (2.0 * (10:ℝ) ^ (-((5:ℝ) + 1.5) / 6.5)) ∧
    fgRadius (SkyStar.mk 0 0 (some 0)) = max 0.5 (3.5 * (10:ℝ) ^ (-((5:ℝ) + 1.5) / 6.5)) :=
  falsy_magnitude_defaults_to_5 (SkyStar.mk 0 0 (some 0)) (Or.inr rfl) [] [] 100 4
    Hemisphere.north 410 440

/-- Source: showBothHemispheres = hemisphereFilter === 'both'. -/
def showBothHemispheres (hemisphereFilter : HemisphereFilter) : Bool :=
  hemisphereFilter == HemisphereFilter.both

/-- Source canvasWidth: two circles plus gap on desktop, one column on
mobile, single-circle width otherwise. -/
noncomputable def canvasWidth (isMobile : Bool) (hemisphereFilter : HemisphereFilter) : ℝ :=
  if showBothHemispheres hemisphereFilter then
    (if isMobile then hemisphereSize + 20 else hemisphereSize * 2 + 40)
  else hemisphereSize + 20

/-- Source canvasHeight: two stacked circles on mobile, one row on
desktop, single-circle height otherwise. -/
noncomputable def canvasHeight (isMobile : Bool) (hemisphereFilter : HemisphereFilter) : ℝ :=
  if showBothHemispheres hemisphereFilter then
    (if isMobile then hemisphereSize * 2 + 100 else hemisphereSize + 60)
  else hemisphereSize + 60

/-- The centerX assignment of the hemisphere drawing loop. -/
noncomputable def hemisphereCenterX (isMobile : Bool) (hemisphereFilter : HemisphereFilter)
    (hemisphere : Hemisphere) : ℝ :=
  if showBothHemispheres hemisphereFilter then
    (if isMobile then hemisphereSize / 2 + 10
     else if hemisphere = Hemisphere.north then hemisphereSize / 2 + 10
     else hemisphereSize * 1.5 + 30)
  else hemisphereSize / 2 + 10

/-- The centerY assignment of the hemisphere drawing loop. -/
noncomputable def hemisphereCenterY (isMobile : Bool) (hemisphereFilter : HemisphereFilter)
    (hemisphere : Hemisphere) : ℝ :=
  if showBothHemispheres hemisphereFilter then
    (if isMobile then
      (if hemisphere = Hemisphere.north then hemisphereSize / 2 + 40
       else hemisphereSize * 1.5 + 90)
     else hemisphereSize / 2 + 40)
  else hemisphereSize / 2 + 40

/-- C8: the canvas dimensions and circle centers depend only on the
viewport class and the hemisphere filter; with filter both a narrow
viewport stacks the circles vertically on a taller canvas, a wide
viewport places them side by side on a wider canvas, and a
single-hemisphere filter gives one fixed centered circle. -/
theorem layout_deterministic :
    (hemisphereCenterX true HemisphereFilter.both Hemisphere.north =
       hemisphereCenterX true HemisphereFilter.both Hemisphere.south ∧
     hemisphereCenterY true HemisphereFilter.both Hemisphere.north <
       hemisphereCenterY true HemisphereFilter.both Hemisphere.south ∧
     canvasWidth true HemisphereFilter.both < canvasHeight true HemisphereFilter.both) ∧
    (hemisphereCenterY false HemisphereFilter.both Hemisphere.north =
       hemisphereCenterY false HemisphereFilter.both Hemisphere.south ∧
     hemisphereCenterX false HemisphereFilter.both Hemisphere.north <
       hemisphereCenterX false HemisphereFilter.both Hemisphere.south ∧
     canvasHeight false HemisphereFilter.both < canvasWidth false HemisphereFilter.both) ∧
    (canvasWidth true HemisphereFilter.both = 820 ∧
     canvasHeight true HemisphereFilter.both = 1700 ∧
     canvasWidth false HemisphereFilter.both = 1640 ∧
     canvasHeight false HemisphereFilter.both = 860) ∧
    (∀ (isMobile : Bool) (hemisphere : Hemisphere),
      canvasWidth isMobile HemisphereFilter.north = 820 ∧
      canvasHeight isMobile HemisphereFilter.north = 860 ∧
      hemisphereCenterX isMobile HemisphereFilter.north hemisphere = 410 ∧
      hemisphereCenterY isMobile HemisphereFilter.north hemisphere = 440 ∧
      canvasWidth isMobile HemisphereFilter.south = 820 ∧
      canvasHeight isMobile HemisphereFilter.south = 860 ∧
      hemisphereCenterX isMobile HemisphereFilter.south hemisphere = 410 ∧
      hemisphereCenterY isMobile HemisphereFilter.south hemisphere = 440) := by
  refine ⟨⟨?_, ?_, ?_⟩, ⟨?_, ?_, ?_⟩, ⟨?_, ?_, ?_, ?_⟩, fun isMobile hemisphere => ?_⟩ <;>
  · try cases isMobile
    all_goals try cases hemisphere
    all_goals
      simp only [canvasWidth, canvasHeight, hemisphereCenterX, hemisphereCenterY,
        showBothHemispheres, hemisphereSize, reduceCtorEq, if_false, if_true]
    all_goals norm_num
    all_goals exact ⟨fun h => HemisphereFilter.noConfusion h, fun h => HemisphereFilter.noConfusion h⟩

/-- The feedback state for the most recent tap: which abbrev was tapped
and whether it was the correct answer. -/
structure TappedFeedback where
  abbr : String
  correct : Bool

/-- The translucent fill a boundary region receives in one draw pass. -/
inductive BoundaryFill
  | green
  | red
  | blue
  | noFill
deriving DecidableEq, Repr

/-- Models tappedFeedback?.correct coerced to boolean (undefined is falsy). -/
def tappedCorrect (tappedFeedback : Option TappedFeedback) : Bool :=
  match tappedFeedback with
  | none => false
  | some tf => tf.correct

/-- Models isTapped = tappedFeedback && abbrev === tappedFeedback.abbrev. -/
def isTappedRegion (abbr : String) (tappedFeedback : Option TappedFeedback) : Bool :=
  match tappedFeedback with
  | none => false
  | some tf => abbr == tf.abbr

/-- Models isHighlighted = abbrev === highlightedAbbrev. -/
def isHighlightedRegion (abbr : String) (highlightedAbbrev : Option String) : Bool :=
  some abbr == highlightedAbbrev

/-- The fill decision of the boundary drawing block: tapped regions get
green (correct) or red (incorrect); otherwise a highlighted region gets
blue when !tappedFeedback?.correct; otherwise no fill (stroke only). -/
def regionFill (showBoundaries : Bool) (abbr : String)
    (highlightedAbbrev : Option String) (tappedFeedback : Option TappedFeedback) :
    BoundaryFill :=
  if showBoundaries then
    if isTappedRegion abbr tappedFeedback then
      (if tappedCorrect tappedFeedback then BoundaryFill.green else BoundaryFill.red)
    else if isHighlightedRegion abbr highlightedAbbrev && !(tappedCorrect tappedFeedback) then
      BoundaryFill.blue
    else BoundaryFill.noFill
  else BoundaryFill.noFill

/-- C6 counterexample: with showBoundaries on and no tap feedback at all
(tappedFeedback null) the highlighted region is already filled blue, so
the blue fill does not occur only when the last tap was incorrect. -/
theorem highlighted_blue_without_any_tap :
    regionFill true "UMA" (some "UMA") none = BoundaryFill.blue ∧
    ∀ tf : TappedFeedback, (none : Option TappedFeedback) ≠ some tf := by
  constructor
  · rfl
  · intro tf h
    exact Option.noConfusion h

/-- C6 (amended): tapped regions are filled green (correct tap) or red
(incorrect tap); a region is filled blue exactly when it is not tapped,
is highlighted, and there is no tap feedback or the last tap was
incorrect; the tapped fill always takes precedence, so a tapped region
is never blue. -/
theorem regionFill_cases (abbr : String) (highlightedAbbrev : Option String)
    (tappedFeedback : Option TappedFeedback) :
    (regionFill true abbr highlightedAbbrev tappedFeedback = BoundaryFill.green ↔
      isTappedRegion abbr tappedFeedback = true ∧ tappedCorrect tappedFeedback = true) ∧
    (regionFill true abbr highlightedAbbrev tappedFeedback = BoundaryFill.red ↔
      isTappedRegion abbr tappedFeedback = true ∧ tappedCorrect tappedFeedback = false) ∧
    (regionFill true abbr highlightedAbbrev tappedFeedback = BoundaryFill.blue ↔
      isTappedRegion abbr tappedFeedback = false ∧
        isHighlightedRegion abbr highlightedAbbrev = true ∧
        (tappedFeedback = none ∨ tappedCorrect tappedFeedback = false)) ∧
    (isTappedRegion abbr tappedFeedback = true →
      regionFill true abbr highlightedAbbrev tappedFeedback ≠ BoundaryFill.blue) := by
  cases htf : tappedFeedback with
  | none =>
    cases hhl : isHighlightedRegion abbr highlightedAbbrev <;>
      simp [regionFill, isTappedRegion, tappedCorrect, hhl]
  | some tf =>
    cases htap : (abbr == tf.abbr) <;>
      cases hcor : tf.correct <;>
        cases hhl : isHighlightedRegion abbr highlightedAbbrev <;>
          simp [regionFill, isTappedRegion, tappedCorrect, htap, hcor, hhl]

/-- Witness for C6's amended statement at a concrete correct tap. -/
theorem regionFill_cases_witness :
    (regionFill true "UMA" (some "Ori") (some (TappedFeedback.mk "UMA" true)) =
        BoundaryFill.green ↔
      isTappedRegion "UMA" (some (TappedFeedback.mk "UMA" true)) = true ∧
        tappedCorrect (some (TappedFeedback.mk "UMA" true)) = true) ∧
    (regionFill true "UMA" (some "Ori") (some (TappedFeedback.mk "UMA" true)) =
        BoundaryFill.red ↔
      isTappedRegion "UMA" (some (TappedFeedback.mk "UMA" true)) = true ∧
        tappedCorrect (some (TappedFeedback.mk "UMA" true)) = false) ∧
    (regionFill true "UMA" (some "Ori") (some (TappedFeedback.mk "UMA" true)) =
        BoundaryFill.blue ↔
      isTappedRegion "UMA" (some (TappedFeedback.mk "UMA" true)) = false ∧
        isHighlightedRegion "UMA" (some "Ori") = true ∧
        (some (TappedFeedback.mk "UMA" true) = none ∨
          tappedCorrect (some (TappedFeedback.mk "UMA" true)) = false)) ∧
    (isTappedRegion "UMA" (some (TappedFeedback.mk "UMA" true)) = true →
      regionFill true "UMA" (some "Ori") (some (TappedFeedback.mk "UMA" true)) ≠
        BoundaryFill.blue) :=
  regionFill_cases "UMA" (some "Ori") (some (TappedFeedback.mk "UMA" true))

/-- A registered boundary path, modelled by its point-containment test:
this stands for a Path2D queried through ctx.isPointInPath. -/
def RegionTest : Type := ℝ → ℝ → Bool

/-- The key under which a region is registered, source template literal
abbrev-hemisphere. -/
def regionKey (abbr : String) (hemisphere : Hemisphere) : String :=
  abbr ++ "-" ++ hemisphereName hemisphere

/-- Models key.split('-')[0]: the characters of the key before its first
dash (the whole key when it has no dash). -/
def keyAbbrev (key : String) : String :=
  String.mk (key.data.takeWhile (fun c => c != '-'))

/-- Source handleClick hit-testing loop: walk the registered (key, path)
entries in registration order, return on the first path containing the
point with that key's abbrev part; report null when no path contains it. -/
def handleClick (paths : List (String × RegionTest)) (x y : ℝ) :
    Option String × ℝ × ℝ :=
  match paths with
  | [] => (none, x, y)
  | (key, test) :: rest =>
    if test x y then (some (keyAbbrev key), x, y) else handleClick rest x y

theorem handleClick_no_match (paths : List (String × RegionTest)) (x y : ℝ)
    (h : ∀ p ∈ paths, p.2 x y = false) : handleClick paths x y = (none, x, y) := by
  induction paths with
  | nil => rfl
  | cons p rest ih =>
    obtain ⟨key, test⟩ := p
    have hp : test x y = false := h (key, test) (List.mem_cons_self _ _)
    simp only [handleClick, hp, Bool.false_eq_true, if_false]
    exact ih (fun q hq => h q (List.mem_cons_of_mem _ hq))

theorem handleClick_first (pre : List (String × RegionTest)) (key : String)
    (test : RegionTest) (post : List (String × RegionTest)) (x y : ℝ)
    (hpre : ∀ p ∈ pre, p.2 x y = false) (ht : test x y = true) :
    handleClick (pre ++ (key, test) :: post) x y = (some (keyAbbrev key), x, y) := by
  induction pre with
  | nil => simp [handleClick, ht]
  | cons p rest ih =>
    obtain ⟨k2, t2⟩ := p
    have hp : t2 x y = false := hpre (k2, t2) (List.mem_cons_self _ _)
    simp only [List.cons_append, handleClick, hp, Bool.false_eq_true, if_false]
    exact ih (fun q hq => hpre q (List.mem_cons_of_mem _ hq))

/-- C2: hit testing walks the registered regions in registration order
and reports the first region containing the point (by the abbrev part of
its key); when no registered region contains the point the callback
receives null with the same coordinates, as a normal total outcome. -/
theorem hit_test_order_and_null (paths : List (String × RegionTest)) (x y : ℝ) :
    ((∀ p ∈ paths, p.2 x y = false) → handleClick paths x y = (none, x, y)) ∧
    (∀ (pre : List (String × RegionTest)) (key : String) (test : RegionTest)
        (post : List (String × RegionTest)),
      paths = pre ++ (key, test) :: post →
      (∀ p ∈ pre, p.2 x y = false) → test x y = true →
      handleClick paths x y = (some (keyAbbrev key), x, y)) :=
  ⟨fun h => handleClick_no_match paths x y h,
   fun pre key test post heq hpre ht =>
     heq ▸ handleClick_first pre key test post x y hpre ht⟩

/-- Witness for C2: a registry of two regions where only the second
contains the point resolves to the second key's abbrev, and an
all-missing registry resolves to null, at the concrete point (3, 4). -/
theorem hit_test_order_and_null_witness :
    handleClick [("Ori-north", fun _ _ => false), ("UMA-north", fun _ _ => true)] 3 4 =
      (some "UMA", 3, 4) ∧
    handleClick [("Ori-north", fun _ _ => false)] 3 4 = (none, 3, 4) := by
  constructor
  · have h := (hit_test_order_and_null
        [("Ori-north", fun _ _ => false), ("UMA-north", fun _ _ => true)] 3 4).2
        [("Ori-north", fun _ _ => false)] "UMA-north" (fun _ _ => true) [] rfl
        (by intro p hp; rw [List.mem_singleton] at hp; rw [hp]) rfl
    rw [h]
    rfl
  · exact (hit_test_order_and_null [("Ori-north", fun _ _ => false)] 3 4).1
      (by intro p hp; rw [List.mem_singleton] at hp; rw [hp])

/-- One iteration of the boundary-building loop for one constellation in
one hemisphere: skip when the boundary is missing or shorter than 3
vertices, skip when no projected vertex is visible in this hemisphere,
otherwise build the closed polygon from every projected vertex in order
(vertices beyond the cutoff included). -/
noncomputable def buildRegion (data : ConstellationData) (hemisphere : Hemisphere)
    (centerX centerY : ℝ) : Option (List (ℝ × ℝ)) :=
  match data.boundary with
  | none => none
  | some b =>
    if b.length < 3 then none
    else if ∃ v ∈ b, (projectToHemisphere v.1 v.2 hemisphere centerX centerY).visible then
      some (b.map (fun v =>
        ((projectToHemisphere v.1 v.2 hemisphere centerX centerY).x,
          (projectToHemisphere v.1 v.2 hemisphere centerX centerY).y)))
    else none

/-- The hit-test registry built by one hemisphere pass over the catalog:
a built region is stored under the key abbrev-hemisphere, but only when
the filtered set is empty or has the abbrev (source: if
(filteredSet.size === 0 or filteredSet.has(abbrev))). -/
noncomputable def buildRegions (constellations : List (String × ConstellationData))
    (filteredConstellations : List String) (hemisphere : Hemisphere)
    (centerX centerY : ℝ) : List (String × List (ℝ × ℝ)) :=
  constellations.filterMap (fun c =>
    (buildRegion c.2 hemisphere centerX centerY).bind (fun poly =>
      if filteredConstellations.isEmpty ∨ c.1 ∈ filteredConstellations then
        some (regionKey c.1 hemisphere, poly)
      else none))

/-- C5: per hemisphere, a missing or short boundary is silently skipped,
an all-invisible boundary is skipped, and otherwise the polygon is built
from all projected vertices in their given order. -/
theorem region_building_cases (data : ConstellationData) (hemisphere : Hemisphere)
    (centerX centerY : ℝ) :
    (data.boundary = none → buildRegion data hemisphere centerX centerY = none) ∧
    (∀ b, data.boundary = some b → b.length < 3 →
      buildRegion data hemisphere centerX centerY = none) ∧
    (∀ b, data.boundary = some b → 3 ≤ b.length →
      (∀ v ∈ b, ¬ (projectToHemisphere v.1 v.2 hemisphere centerX centerY).visible) →
      buildRegion data hemisphere centerX centerY = none) ∧
    (∀ b, data.boundary = some b → 3 ≤ b.length →
      (∃ v ∈ b, (projectToHemisphere v.1 v.2 hemisphere centerX centerY).visible) →
      buildRegion data hemisphere centerX centerY =
        some (b.map (fun v =>
          ((projectToHemisphere v.1 v.2 hemisphere centerX centerY).x,
            (projectToHemisphere v.1 v.2 hemisphere centerX centerY).y)))) := by
  refine ⟨?_, ?_, ?_, ?_⟩
  · intro hb
    simp [buildRegion, hb]
  · intro b hb hlen
    simp [buildRegion, hb, hlen]
  · intro b hb hlen hnone
    have hlen' : ¬ b.length < 3 := not_lt.mpr hlen
    have hnoex : ¬ ∃ v ∈ b, (projectToHemisphere v.1 v.2 hemisphere centerX centerY).visible := by
      push_neg
      exact hnone
    simp [buildRegion, hb, hlen', hnoex]
  · intro b hb hlen hex
    have hlen' : ¬ b.length < 3 := not_lt.mpr hlen
    simp [buildRegion, hb, hlen', hex]

/-- Sample catalog entry with a three-vertex boundary at the north pole. -/
noncomputable def sampleBoundaryData : ConstellationData :=
  ConstellationData.mk "Ursa Major" "north" "easy" [] []
    (some [(0, 90), (6, 90), (12, 90)])

/-- A boundary vertex sitting on the north pole is visible in the north
hemisphere. -/
theorem northPole_vertex_visible :
    (projectToHemisphere 0 90 Hemisphere.north 410 440).visible := by
  show angularDist 90 Hemisphere.north * 180 / Real.pi ≤ 90
  have h0 : angularDist 90 Hemisphere.north = 0 := angularDist_pole Hemisphere.north
  rw [h0]
  norm_num

/-- Witness for C5: the sample boundary has three vertices and a visible
one, so its polygon is built from all projected vertices in order. -/
theorem region_building_cases_witness :
    buildRegion sampleBoundaryData Hemisphere.north 410 440 =
      some ([((0:ℝ), (90:ℝ)), (6, 90), (12, 90)].map (fun v =>
        ((projectToHemisphere v.1 v.2 Hemisphere.north 410 440).x,
          (projectToHemisphere v.1 v.2 Hemisphere.north 410 440).y))) :=
  (region_building_cases sampleBoundaryData Hemisphere.north 410 440).2.2.2
    [(0, 90), (6, 90), (12, 90)] rfl (by norm_num)
    ⟨(0, 90), List.mem_cons_self _ _, northPole_vertex_visible⟩

theorem buildRegion_sample :
    buildRegion sampleBoundaryData Hemisphere.north 410 440 =
      some ([((0:ℝ), (90:ℝ)), (6, 90), (12, 90)].map (fun v =>
        ((projectToHemisphere v.1 v.2 Hemisphere.north 410 440).x,
          (projectToHemisphere v.1 v.2 Hemisphere.north 410 440).y))) := by
  have hex : ∃ v ∈ [((0:ℝ), (90:ℝ)), (6, 90), (12, 90)],
      (projectToHemisphere v.1 v.2 Hemisphere.north 410 440).visible :=
    ⟨(0, 90), List.mem_cons_self _ _, northPole_vertex_visible⟩
  simp [buildRegion, sampleBoundaryData, hex]
  intro h0 _
  exact absurd northPole_vertex_visible h0

/-- C3 counterexample: with an empty filteredConstellations list the
region of a constellation that is not a member of the filtered set is
nevertheless registered for hit testing. -/
theorem region_registered_despite_empty_filter :
    (buildRegions [("UMA", sampleBoundaryData)] [] Hemisphere.north 410 440).map
        Prod.fst = ["UMA-north"] ∧
    "UMA" ∉ ([] : List String) := by
  constructor
  · simp [buildRegions, buildRegion_sample, regionKey, hemisphereName]
  · simp

/-- C3 (amended): when filteredConstellations is nonempty a region is
registered only for constellations that belong to it; when it is empty
the filter is inactive and every built region is registered. -/
theorem region_registration_filter (constellations : List (String × ConstellationData))
    (filteredConstellations : List String) (hemisphere : Hemisphere)
    (centerX centerY : ℝ) :
    (filteredConstellations.isEmpty = false →
      ∀ key poly, (key, poly) ∈ buildRegions constellations filteredConstellations
          hemisphere centerX centerY →
        ∃ a ∈ filteredConstellations, key = regionKey a hemisphere) ∧
    (filteredConstellations.isEmpty = true →
      buildRegions constellations filteredConstellations hemisphere centerX centerY =
        constellations.filterMap (fun c =>
          Option.map (fun poly => (regionKey c.1 hemisphere, poly))
            (buildRegion c.2 hemisphere centerX centerY))) := by
  constructor
  · intro hne key poly hmem
    rw [buildRegions, List.mem_filterMap] at hmem
    obtain ⟨c, hc, heq⟩ := hmem
    rcases hbr : buildRegion c.2 hemisphere centerX centerY with _ | p <;> rw [hbr] at heq
    · exact absurd heq (by simp)
    · rw [Option.some_bind] at heq
      by_cases hcond : (filteredConstellations.isEmpty = true ∨ c.1 ∈ filteredConstellations)
      · rw [if_pos hcond] at heq
        rcases hcond with hcond | hcond
        · rw [hne] at hcond
          exact absurd hcond (by simp)
        · refine ⟨c.1, hcond, ?_⟩
          have hfst := congrArg (fun o => Option.map Prod.fst o) heq
          simpa using hfst.symm
      · rw [if_neg hcond] at heq
        exact absurd heq (by simp)
  · intro hemp
    unfold buildRegions
    congr 1
    funext c
    rcases hbr : buildRegion c.2 hemisphere centerX centerY with _ | p
    · rfl
    · rw [Option.some_bind, if_pos (Or.inl hemp)]
      rfl

/-- Witness for C3's amended statement with a nonempty filtered set. -/
theorem region_registration_filter_witness :
    ((["Ori"] : List String).isEmpty = false →
      ∀ key poly, (key, poly) ∈ buildRegions [("UMA", sampleBoundaryData)] ["Ori"]
          Hemisphere.north 410 440 →
        ∃ a ∈ (["Ori"] : List String), key = regionKey a Hemisphere.north) ∧
    ((["Ori"] : List String).isEmpty = true →
      buildRegions [("UMA", sampleBoundaryData)] ["Ori"] Hemisphere.north 410 440 =
        [("UMA", sampleBoundaryData)].filterMap (fun c =>
          Option.map (fun poly => (regionKey c.1 Hemisphere.north, poly))
            (buildRegion c.2 Hemisphere.north 410 440))) :=
  region_registration_filter [("UMA", sampleBoundaryData)] ["Ori"] Hemisphere.north 410 440
